import Mathlib

/-
Shallow embedding of the Guardian Recovery Protocol registry contract
(src/contracts/recovery_registry/src/main.rs).

The contract is a session WASM dispatching on a numeric action code over a
string-keyed persistent store.  The store keys are built from disjoint
prefixes (grp_init_, grp_guardians_, grp_threshold_, grp_active_,
grp_counter, grp_rec_<id>_account, grp_rec_<id>_new_key,
grp_rec_<id>_approval_count, grp_rec_<id>_approved,
grp_rec_<id>_approver_<g>), so the store is modelled as a record with one
typed table per key family.  AccountHash and PublicKey are opaque values,
modelled as Nat.  The u8 approval counter is modelled as Nat with explicit
reduction mod 256 at the increment (release-build wrapping semantics); the
U256 session counter increments by one per session (its wrap point 2^256
is out of the modelled regime).  A revert (runtime::revert or
unwrap_or_revert) aborts the call with no write, modelled by Except: an
error carries no new state.
-/

namespace GuardianRecovery

abbrev Account := Nat

abbrev PubKey := Nat

/-- Error codes of the registry contract (enum Error in main.rs). -/
inductive Err
| NotAccountOwner
| AlreadyInitialized
| InvalidGuardianSet
| InvalidThreshold
| NotGuardian
| RecoveryExists
| RecoveryNotFound
| AlreadyApproved
| ThresholdNotMet
| NotInitialized
| InvalidAction
deriving DecidableEq, Repr

/-- Numeric u16 codes of the repr(u16) enum in main.rs. -/
def Err.code : Err → Nat
| .NotAccountOwner => 1
| .AlreadyInitialized => 2
| .InvalidGuardianSet => 3
| .InvalidThreshold => 4
| .NotGuardian => 5
| .RecoveryExists => 6
| .RecoveryNotFound => 7
| .AlreadyApproved => 8
| .ThresholdNotMet => 9
| .NotInitialized => 10
| .InvalidAction => 11

/-- The persistent store, one table per storage-key family.  A value of
none means the key is absent.  The per-guardian approver markers of a
session (only ever written with value true) are modelled as the list of
guardians whose marker is present for that session id. -/
structure State where
  init : Account → Option Bool
  guardians : Account → Option (List Account)
  threshold : Account → Option Nat
  active : Account → Option Nat
  counter : Option Nat
  recAccount : Nat → Option Account
  recNewKey : Nat → Option PubKey
  recApprovalCount : Nat → Option Nat
  recApproved : Nat → Option Bool
  recApprovers : Nat → List Account

/-- Pointwise update of a table at one key (runtime::put_key). -/
def upd {α : Type} (f : Nat → α) (k : Nat) (v : α) : Nat → α :=
  fun x => if x = k then v else f x

/-- The store before any call: every key absent. -/
def State.empty : State :=
  { init := fun _ => none
    guardians := fun _ => none
    threshold := fun _ => none
    active := fun _ => none
    counter := none
    recAccount := fun _ => none
    recNewKey := fun _ => none
    recApprovalCount := fun _ => none
    recApproved := fun _ => none
    recApprovers := fun _ => [] }

/-- Action 1 of main.rs (initialize the guardian set): the caller must
equal the account, at least 2 guardians, threshold in [1, len], account
not yet initialized; then persists guardians, threshold and the init
flag.  There is no duplicate check on the guardian list. -/
def action_init_guardians (caller account : Account) (gs : List Account)
    (t : Nat) (s : State) : Except Err State :=
  if caller ≠ account then .error .NotAccountOwner
  else if gs.length < 2 then .error .InvalidGuardianSet
  else if t = 0 ∨ gs.length < t then .error .InvalidThreshold
  else if (s.init account).getD false then .error .AlreadyInitialized
  else .ok { s with
    guardians := upd s.guardians account (some gs)
    threshold := upd s.threshold account (some t)
    init := upd s.init account (some true) }

/-- Action 2 (action_initiate_recovery): the account must be initialized
and have no active recovery; allocates id = counter + 1, stores the
session record with count 0 and approved false, and sets the active
marker. -/
def action_initiate_recovery (account : Account) (newKey : PubKey)
    (s : State) : Except Err State :=
  if ¬ (s.init account).getD false then .error .NotInitialized
  else match s.active account with
  | some _ => .error .RecoveryExists
  | none =>
    .ok { s with
      counter := some (s.counter.getD 0 + 1)
      recAccount := upd s.recAccount (s.counter.getD 0 + 1) (some account)
      recNewKey := upd s.recNewKey (s.counter.getD 0 + 1) (some newKey)
      recApprovalCount := upd s.recApprovalCount (s.counter.getD 0 + 1) (some 0)
      recApproved := upd s.recApproved (s.counter.getD 0 + 1) (some false)
      active := upd s.active account (some (s.counter.getD 0 + 1)) }

/-- Action 3 (action_approve_recovery): the session must exist, the
caller must be in the guardian list of its account and not yet marked as
an approver of this session; then the approver marker is written, the u8
count is incremented (wrapping mod 256), and when the new count reaches
the threshold (read with default 2) the approved flag is set to true. -/
def action_approve_recovery (caller : Account) (id : Nat) (s : State) :
    Except Err State :=
  match s.recAccount id with
  | none => .error .RecoveryNotFound
  | some account =>
    match s.guardians account with
    | none => .error .NotGuardian
    | some gs =>
      if caller ∉ gs then .error .NotGuardian
      else if caller ∈ s.recApprovers id then .error .AlreadyApproved
      else if (s.threshold account).getD 2 ≤
          ((s.recApprovalCount id).getD 0 + 1) % 256 then
        .ok { s with
          recApprovers := upd s.recApprovers id (caller :: s.recApprovers id)
          recApprovalCount := upd s.recApprovalCount id
            (some (((s.recApprovalCount id).getD 0 + 1) % 256))
          recApproved := upd s.recApproved id (some true) }
      else
        .ok { s with
          recApprovers := upd s.recApprovers id (caller :: s.recApprovers id)
          recApprovalCount := upd s.recApprovalCount id
            (some (((s.recApprovalCount id).getD 0 + 1) % 256)) }

/-- Action 4 (action_is_threshold_met): read-only; the session must
exist; returns the approved flag (absent key read as false). -/
def action_is_threshold_met (id : Nat) (s : State) : Except Err Bool :=
  match s.recAccount id with
  | none => .error .RecoveryNotFound
  | some _ => .ok ((s.recApproved id).getD false)

/-- Action 5 (action_finalize_recovery): the session must exist and be
approved; then the active marker of its account is removed. -/
def action_finalize_recovery (id : Nat) (s : State) : Except Err State :=
  match s.recAccount id with
  | none => .error .RecoveryNotFound
  | some account =>
    if ¬ (s.recApproved id).getD false then .error .ThresholdNotMet
    else .ok { s with active := upd s.active account none }

/-- Action 6 (action_get_guardians): read-only lookup of the guardian
list. -/
def action_get_guardians (account : Account) (s : State) :
    Except Err (List Account) :=
  match s.guardians account with
  | none => .error .NotInitialized
  | some gs => .ok gs

/-- Action 7 (action_get_threshold): read-only lookup of the
threshold. -/
def action_get_threshold (account : Account) (s : State) :
    Except Err Nat :=
  match s.threshold account with
  | none => .error .NotInitialized
  | some t => .ok t

/-- Action 8 (action_has_guardians): read-only; returns the init flag
(absent read as false). -/
def action_has_guardians (account : Account) (s : State) :
    Except Err Bool :=
  .ok ((s.init account).getD false)

/-- A value passed to runtime::ret. -/
inductive Val
| b : Bool → Val
| n : Nat → Val
| accounts : List Account → Val
| triple : Account → Nat → Bool → Val
deriving DecidableEq, Repr

/-- The named runtime arguments of a deploy, together with the
authenticated caller (runtime::get_caller). -/
structure Args where
  caller : Account := 0
  account : Account := 0
  guardians : List Account := []
  threshold : Nat := 0
  newKey : PubKey := 0
  recoveryId : Nat := 0

/-- The session WASM entry point (fn call in main.rs): dispatch on the
action code; unknown codes revert with InvalidAction.  The result is the
new store plus the value passed to runtime::ret, if any. -/
def call (action : Nat) (a : Args) (s : State) :
    Except Err (State × Option Val) :=
  if action = 1 then
    (action_init_guardians a.caller a.account a.guardians a.threshold s).map
      (fun s1 => (s1, none))
  else if action = 2 then
    (action_initiate_recovery a.account a.newKey s).map (fun s1 => (s1, none))
  else if action = 3 then
    (action_approve_recovery a.caller a.recoveryId s).map (fun s1 => (s1, none))
  else if action = 4 then
    (action_is_threshold_met a.recoveryId s).map (fun r => (s, some (.b r)))
  else if action = 5 then
    (action_finalize_recovery a.recoveryId s).map (fun s1 => (s1, none))
  else if action = 6 then
    (action_get_guardians a.account s).map (fun r => (s, some (.accounts r)))
  else if action = 7 then
    (action_get_threshold a.account s).map (fun r => (s, some (.n r)))
  else if action = 8 then
    (action_has_guardians a.account s).map (fun r => (s, some (.b r)))
  else .error .InvalidAction

/-- The store after one deploy: a revert commits nothing. -/
def stepCall (s : State) (p : Nat × Args) : State :=
  match call p.1 p.2 s with
  | .ok (s1, _) => s1
  | .error _ => s

/-- Run a sequence of deploys from a given store. -/
def runFrom (s : State) (l : List (Nat × Args)) : State :=
  l.foldl stepCall s

/-- Run a sequence of deploys from the empty store. -/
def runTrace (l : List (Nat × Args)) : State :=
  runFrom State.empty l

/-- A store reachable from the empty store by some sequence of calls. -/
def Reachable (s : State) : Prop :=
  ∃ l : List (Nat × Args), s = runTrace l

/-- Arguments of a register deploy (action 1). -/
def regArgs (c a : Account) (gs : List Account) (t : Nat) : Args :=
  { caller := c, account := a, guardians := gs, threshold := t }

/-- Arguments of an initiate deploy (action 2). -/
def initArgs (a : Account) (k : PubKey) : Args :=
  { account := a, newKey := k }

/-- Arguments of an approve deploy (action 3). -/
def apArgs (c id : Nat) : Args :=
  { caller := c, recoveryId := id }

/-- Arguments of a finalize deploy (action 5). -/
def finArgs (id : Nat) : Args :=
  { recoveryId := id }

/-- The error of a result, if any. -/
def errOf : Except Err State → Option Err
| .error e => some e
| .ok _ => none

/-- The approval count of a given session in the resulting store, if the
call succeeded. -/
def okCount (id : Nat) : Except Err State → Option (Option Nat)
| .ok s => some (s.recApprovalCount id)
| .error _ => none

/-- The returned value of a dispatched call, if it succeeded. -/
def retOf : Except Err (State × Option Val) → Option (Option Val)
| .ok (_, v) => some v
| .error _ => none

/-- Modelled from the spec: getSessionInfo(sessionId) →
(account, approval_count, approved), read-only, SessionNotFound when the
session is absent (the session-missing error of the code is
RecoveryNotFound).  No such entry point exists in
src/contracts/recovery_registry/src/main.rs; this definition follows the
spec words and is compared against the dispatcher. -/
def spec_getSessionInfo (id : Nat) (s : State) :
    Except Err (State × Option Val) :=
  match s.recAccount id with
  | none => .error .RecoveryNotFound
  | some a =>
    .ok (s, some (.triple a ((s.recApprovalCount id).getD 0)
      ((s.recApproved id).getD false)))

/-- Invariant of reachable stores, proved by induction over deploys. -/
structure StateInv (s : State) : Prop where
  fresh : ∀ id, s.counter.getD 0 < id →
    s.recAccount id = none ∧ s.recApprovalCount id = none ∧
    s.recApproved id = none ∧ s.recApprovers id = []
  count_eq : ∀ id a, s.recAccount id = some a →
    s.recApprovalCount id = some ((s.recApprovers id).length % 256)
  sess_init : ∀ id a, s.recAccount id = some a →
    (s.init a).getD false = true
  appr_nodup : ∀ id, (s.recApprovers id).Nodup
  appr_guard : ∀ id g, g ∈ s.recApprovers id →
    ∃ a gs, s.recAccount id = some a ∧ s.guardians a = some gs ∧ g ∈ gs
  guard_init : ∀ a, s.guardians a ≠ none → (s.init a).getD false = true
  active_init : ∀ a id, s.active a = some id →
    (s.init a).getD false = true

/-- Claim C1 as stated: register with a duplicate guardian list (other
preconditions holding) fails with InvalidGuardianSet. -/
def C1_claimStatement : Prop :=
  ∀ (s : State) (a : Account) (gsl : List Account) (t : Nat),
    2 ≤ gsl.length → 1 ≤ t → t ≤ gsl.length →
    (s.init a).getD false = false → ¬ gsl.Nodup →
    action_init_guardians a a gsl t s = .error .InvalidGuardianSet

/-- Claim C2 as stated: a successful approve by a fresh guardian
increments the count by exactly one, and the approved flag afterwards is
true exactly when the incremented count reaches the threshold. -/
def C2_claimStatement : Prop :=
  ∀ s : State, Reachable s → ∀ (id : Nat) (a cl : Account)
    (gsl : List Account),
    s.recAccount id = some a → s.guardians a = some gsl → cl ∈ gsl →
    cl ∉ s.recApprovers id →
    ∃ s1, action_approve_recovery cl id s = .ok s1 ∧
      s1.recApprovalCount id = some ((s.recApprovalCount id).getD 0 + 1) ∧
      (s1.recApproved id = some true ↔
        (s.threshold a).getD 2 ≤ (s.recApprovalCount id).getD 0 + 1)

/-- Claim C3 as stated: in every reachable store, the stored approval
count of each session equals the number of its recorded approvers, and
every recorded approver is in the guardian set stored for the session
account. -/
def C3_claimStatement : Prop :=
  ∀ s : State, Reachable s → ∀ (id : Nat) (a : Account),
    s.recAccount id = some a →
    s.recApprovalCount id = some (s.recApprovers id).length ∧
    ∀ g ∈ s.recApprovers id, ∃ gsl, s.guardians a = some gsl ∧ g ∈ gsl

/-- Claim C9 as stated: some dispatched action behaves as
getSessionInfo: on every store it returns the (account, count, approved)
triple of an existing session without mutating the store, and fails with
the session-missing error when the session is absent. -/
def C9_claimStatement : Prop :=
  ∃ act : Nat, ∀ (a : Args) (s : State),
    (∀ acct, s.recAccount a.recoveryId = some acct →
      call act a s = .ok (s, some (.triple acct
        ((s.recApprovalCount a.recoveryId).getD 0)
        ((s.recApproved a.recoveryId).getD false)))) ∧
    (s.recAccount a.recoveryId = none →
      call act a s = .error .RecoveryNotFound)

/-- A trace registering 256 distinct guardians for account 300 with
threshold 2, initiating a recovery (session 1), and letting guardians
0..254 approve it: the u8 approval count reaches 255. -/
def cexBase : List (Nat × Args) :=
  (1, regArgs 300 300 (List.range 256) 2) :: (2, initArgs 300 0) ::
    (List.range 255).map (fun k => (3, apArgs k 1))

/-- cexBase followed by the 256th distinct approval, which wraps the u8
approval count from 255 to 0. -/
def cexC3 : List (Nat × Args) :=
  cexBase ++ [(3, apArgs 255 1)]

/-- A store holding one session (id 1, account 5, count 1, approved
false) and nothing else; account 99 is unregistered. -/
def s0C9 : State :=
  { State.empty with
    recAccount := upd State.empty.recAccount 1 (some 5)
    recApprovalCount := upd State.empty.recApprovalCount 1 (some 1)
    recApproved := upd State.empty.recApproved 1 (some false) }

/-- Arguments naming session 1 and the unregistered account 99. -/
def args0C9 : Args :=
  { caller := 0, account := 99, recoveryId := 1 }

/-- A trace with guardians 1, 2 (threshold 2) for account 0 and an open
session 1 with one approval by guardian 1. -/
def trOneApproval : List (Nat × Args) :=
  [(1, regArgs 0 0 [1, 2] 2), (2, initArgs 0 0), (3, apArgs 1 1)]

/-- A trace with guardians 1, 2 (threshold 1) for account 0 and an open
session 1 approved by guardian 1. -/
def trApproved : List (Nat × Args) :=
  [(1, regArgs 0 0 [1, 2] 1), (2, initArgs 0 0), (3, apArgs 1 1)]

/-- A trace with guardians 1, 2 (threshold 2) for account 0 and an open,
unapproved session 1. -/
def trOpen : List (Nat × Args) :=
  [(1, regArgs 0 0 [1, 2] 2), (2, initArgs 0 0)]

/-- A trace registering the duplicated guardian list [7, 7] for account
0 and opening session 1. -/
def trDup : List (Nat × Args) :=
  [(1, regArgs 0 0 [7, 7] 2), (2, initArgs 0 0)]

theorem upd_self {α : Type} (f : Nat → α) (k : Nat) (v : α) :
    upd f k v k = v := by
  simp [upd]

theorem upd_ne {α : Type} (f : Nat → α) (k : Nat) (v : α) (x : Nat)
    (h : x ≠ k) : upd f k v x = f x := by
  simp [upd, h]

theorem inv_empty : StateInv State.empty := by
  constructor <;> simp [State.empty]

theorem inv_register {s s1 : State} {c acct : Account}
    {gsl : List Account} {t : Nat} (h : StateInv s)
    (hOk : action_init_guardians c acct gsl t s = .ok s1) :
    StateInv s1 := by
  unfold action_init_guardians at hOk
  split at hOk
  · exact Except.noConfusion hOk
  split at hOk
  · exact Except.noConfusion hOk
  split at hOk
  · exact Except.noConfusion hOk
  split at hOk
  · exact Except.noConfusion hOk
  rename_i hca hlen ht hinit
  injection hOk with hEq
  subst hEq
  refine ⟨h.fresh, h.count_eq, ?_, h.appr_nodup, ?_, ?_, ?_⟩
  · intro id a ha
    rcases eq_or_ne a acct with rfl | hne
    · simp [upd]
    · simp only [upd, if_neg hne]
      exact h.sess_init id a ha
  · intro id g hg
    obtain ⟨a, gs2, ha, hgu, hm⟩ := h.appr_guard id g hg
    rcases eq_or_ne a acct with rfl | hne
    · exact absurd (h.guard_init a (by simp [hgu])) hinit
    · exact ⟨a, gs2, ha, by simp only [upd, if_neg hne]; exact hgu, hm⟩
  · intro a ha
    rcases eq_or_ne a acct with rfl | hne
    · simp [upd]
    · simp only [upd, if_neg hne] at ha ⊢
      exact h.guard_init a ha
  · intro a id ha
    rcases eq_or_ne a acct with rfl | hne
    · simp [upd]
    · simp only [upd, if_neg hne]
      exact h.active_init a id ha

theorem inv_initiate {s s1 : State} {acct : Account} {k : PubKey}
    (h : StateInv s)
    (hOk : action_initiate_recovery acct k s = .ok s1) :
    StateInv s1 := by
  unfold action_initiate_recovery at hOk
  split at hOk
  · exact Except.noConfusion hOk
  rename_i hinit
  rw [not_not] at hinit
  split at hOk
  · exact Except.noConfusion hOk
  rename_i hact
  injection hOk with hEq
  subst hEq
  have hfresh := h.fresh (s.counter.getD 0 + 1) (Nat.lt_succ_self _)
  refine ⟨?_, ?_, ?_, h.appr_nodup, ?_, h.guard_init, ?_⟩
  · intro j hj
    simp only [Option.getD_some] at hj
    have hne : j ≠ s.counter.getD 0 + 1 := by omega
    obtain ⟨h1, h2, h3, h4⟩ := h.fresh j (by omega)
    refine ⟨?_, ?_, ?_, ?_⟩ <;> simp [upd, hne, h1, h2, h3, h4]
  · intro j a hj
    rcases eq_or_ne j (s.counter.getD 0 + 1) with rfl | hne
    · simp [upd, hfresh.2.2.2]
    · simp only [upd, if_neg hne] at hj ⊢
      exact h.count_eq j a hj
  · intro j a hj
    rcases eq_or_ne j (s.counter.getD 0 + 1) with rfl | hne
    · simp only [upd, if_pos rfl] at hj
      injection hj with hj2
      subst hj2
      exact hinit
    · simp only [upd, if_neg hne] at hj
      exact h.sess_init j a hj
  · intro j g hg
    rcases eq_or_ne j (s.counter.getD 0 + 1) with rfl | hne
    · simp [hfresh.2.2.2] at hg
    · obtain ⟨a, gs2, ha, hgu, hm⟩ := h.appr_guard j g hg
      exact ⟨a, gs2, by simp only [upd, if_neg hne]; exact ha, hgu, hm⟩
  · intro a j ha
    rcases eq_or_ne a acct with rfl | hne
    · exact hinit
    · simp only [upd, if_neg hne] at ha
      exact h.active_init a j ha

theorem inv_approve {s s1 : State} {cl : Account} {id0 : Nat}
    (h : StateInv s)
    (hOk : action_approve_recovery cl id0 s = .ok s1) :
    StateInv s1 := by
  unfold action_approve_recovery at hOk
  split at hOk
  · exact Except.noConfusion hOk
  rename_i acct heqA
  split at hOk
  · exact Except.noConfusion hOk
  rename_i gsl heqG
  split at hOk
  · exact Except.noConfusion hOk
  rename_i hnin
  rw [not_not] at hnin
  split at hOk
  · exact Except.noConfusion hOk
  rename_i hnap
  have hcnt := h.count_eq id0 acct heqA
  have hAcc : ∀ j, s.counter.getD 0 < j → j ≠ id0 := by
    intro j hj hEq
    subst hEq
    rw [(h.fresh j hj).1] at heqA
    exact Option.noConfusion heqA
  have hcalc : ((s.recApprovalCount id0).getD 0 + 1) % 256
      = (cl :: s.recApprovers id0).length % 256 := by
    rw [hcnt]
    simp only [Option.getD_some, List.length_cons]
    omega
  split at hOk <;>
  · injection hOk with hEq
    subst hEq
    refine ⟨?_, ?_, h.sess_init, ?_, ?_, h.guard_init, h.active_init⟩
    · intro j hj
      obtain ⟨h1, h2, h3, h4⟩ := h.fresh j hj
      have hne := hAcc j hj
      refine ⟨?_, ?_, ?_, ?_⟩ <;> simp [upd, hne, h1, h2, h3, h4]
    · intro j a hj
      rcases eq_or_ne j id0 with rfl | hne
      · simp [upd, hcalc]
      · simp only [upd, if_neg hne] at hj ⊢
        exact h.count_eq j a hj
    · intro j
      rcases eq_or_ne j id0 with rfl | hne
      · simp only [upd, if_pos rfl]
        exact List.nodup_cons.mpr ⟨hnap, h.appr_nodup j⟩
      · simp only [upd, if_neg hne]
        exact h.appr_nodup j
    · intro j g hg
      rcases eq_or_ne j id0 with rfl | hne
      · simp only [upd, if_pos rfl] at hg
        rcases List.mem_cons.mp hg with rfl | hg2
        · exact ⟨acct, gsl, heqA, heqG, hnin⟩
        · exact h.appr_guard j g hg2
      · simp only [upd, if_neg hne] at hg
        exact h.appr_guard j g hg

theorem inv_finalize {s s1 : State} {id0 : Nat} (h : StateInv s)
    (hOk : action_finalize_recovery id0 s = .ok s1) :
    StateInv s1 := by
  unfold action_finalize_recovery at hOk
  split at hOk
  · exact Except.noConfusion hOk
  rename_i acct heqA
  split at hOk
  · exact Except.noConfusion hOk
  injection hOk with hEq
  subst hEq
  refine ⟨h.fresh, h.count_eq, h.sess_init, h.appr_nodup, h.appr_guard,
    h.guard_init, ?_⟩
  intro a j ha
  rcases eq_or_ne a acct with rfl | hne
  · simp only [upd, if_pos rfl] at ha
    exact Option.noConfusion ha
  · simp only [upd, if_neg hne] at ha
    exact h.active_init a j ha

theorem stepCall_of_call_ok {act : Nat} {a : Args} {s s1 : State}
    {v : Option Val} (hr : call act a s = .ok (s1, v)) :
    stepCall s (act, a) = s1 := by
  unfold stepCall
  rw [hr]

theorem stepCall_of_call_err {act : Nat} {a : Args} {s : State} {e : Err}
    (hr : call act a s = .error e) : stepCall s (act, a) = s := by
  unfold stepCall
  rw [hr]

theorem inv_call {act : Nat} {a : Args} {s s1 : State} {v : Option Val}
    (h : StateInv s) (hr : call act a s = .ok (s1, v)) :
    StateInv s1 := by
  unfold call at hr
  split at hr
  · cases hx : action_init_guardians a.caller a.account a.guardians
        a.threshold s with
    | ok s2 =>
        rw [hx] at hr
        injection hr with h2
        injection h2 with hs hv
        subst hs
        exact inv_register h hx
    | error e => rw [hx] at hr; exact Except.noConfusion hr
  split at hr
  · cases hx : action_initiate_recovery a.account a.newKey s with
    | ok s2 =>
        rw [hx] at hr
        injection hr with h2
        injection h2 with hs hv
        subst hs
        exact inv_initiate h hx
    | error e => rw [hx] at hr; exact Except.noConfusion hr
  split at hr
  · cases hx : action_approve_recovery a.caller a.recoveryId s with
    | ok s2 =>
        rw [hx] at hr
        injection hr with h2
        injection h2 with hs hv
        subst hs
        exact inv_approve h hx
    | error e => rw [hx] at hr; exact Except.noConfusion hr
  split at hr
  · cases hx : action_is_threshold_met a.recoveryId s with
    | ok r =>
        rw [hx] at hr
        injection hr with h2
        injection h2 with hs hv
        subst hs
        exact h
    | error e => rw [hx] at hr; exact Except.noConfusion hr
  split at hr
  · cases hx : action_finalize_recovery a.recoveryId s with
    | ok s2 =>
        rw [hx] at hr
        injection hr with h2
        injection h2 with hs hv
        subst hs
        exact inv_finalize h hx
    | error e => rw [hx] at hr; exact Except.noConfusion hr
  split at hr
  · cases hx : action_get_guardians a.account s with
    | ok r =>
        rw [hx] at hr
        injection hr with h2
        injection h2 with hs hv
        subst hs
        exact h
    | error e => rw [hx] at hr; exact Except.noConfusion hr
  split at hr
  · cases hx : action_get_threshold a.account s with
    | ok r =>
        rw [hx] at hr
        injection hr with h2
        injection h2 with hs hv
        subst hs
        exact h
    | error e => rw [hx] at hr; exact Except.noConfusion hr
  split at hr
  · cases hx : action_has_guardians a.account s with
    | ok r =>
        rw [hx] at hr
        injection hr with h2
        injection h2 with hs hv
        subst hs
        exact h
    | error e => rw [hx] at hr; exact Except.noConfusion hr
  exact Except.noConfusion hr

theorem inv_stepCall {s : State} (h : StateInv s) (p : Nat × Args) :
    StateInv (stepCall s p) := by
  obtain ⟨act, a⟩ := p
  cases hr : call act a s with
  | ok pr =>
      obtain ⟨s1, v⟩ := pr
      rw [stepCall_of_call_ok hr]
      exact inv_call h hr
  | error e =>
      rw [stepCall_of_call_err hr]
      exact h

theorem inv_runFrom {s : State} (h : StateInv s)
    (l : List (Nat × Args)) : StateInv (runFrom s l) := by
  induction l generalizing s with
  | nil => exact h
  | cons p l ih => exact ih (inv_stepCall h p)

theorem inv_reachable {s : State} (h : Reachable s) : StateInv s := by
  obtain ⟨l, rfl⟩ := h
  exact inv_runFrom inv_empty l

theorem sess_le_counter {s : State} {id : Nat} {a : Account}
    (h : StateInv s) (ha : s.recAccount id = some a) :
    id ≤ s.counter.getD 0 := by
  by_contra hgt
  push_neg at hgt
  rw [(h.fresh id hgt).1] at ha
  exact Option.noConfusion ha

theorem approved_register {s s1 : State} {c acct : Account}
    {gsl : List Account} {t : Nat} {id : Nat}
    (ht : s.recApproved id = some true)
    (hOk : action_init_guardians c acct gsl t s = .ok s1) :
    s1.recApproved id = some true := by
  unfold action_init_guardians at hOk
  split at hOk
  · exact Except.noConfusion hOk
  split at hOk
  · exact Except.noConfusion hOk
  split at hOk
  · exact Except.noConfusion hOk
  split at hOk
  · exact Except.noConfusion hOk
  injection hOk with hEq
  subst hEq
  exact ht

theorem approved_initiate {s s1 : State} {acct : Account} {k : PubKey}
    {id : Nat} (h : StateInv s) (ht : s.recApproved id = some true)
    (hOk : action_initiate_recovery acct k s = .ok s1) :
    s1.recApproved id = some true := by
  unfold action_initiate_recovery at hOk
  split at hOk
  · exact Except.noConfusion hOk
  split at hOk
  · exact Except.noConfusion hOk
  injection hOk with hEq
  subst hEq
  have hne : id ≠ s.counter.getD 0 + 1 := by
    intro hEq2
    rw [hEq2, (h.fresh _ (Nat.lt_succ_self _)).2.2.1] at ht
    exact Option.noConfusion ht
  simp only [upd, if_neg hne]
  exact ht

theorem approved_approve {s s1 : State} {cl : Account} {id0 id : Nat}
    (ht : s.recApproved id = some true)
    (hOk : action_approve_recovery cl id0 s = .ok s1) :
    s1.recApproved id = some true := by
  unfold action_approve_recovery at hOk
  split at hOk
  · exact Except.noConfusion hOk
  split at hOk
  · exact Except.noConfusion hOk
  split at hOk
  · exact Except.noConfusion hOk
  split at hOk
  · exact Except.noConfusion hOk
  split at hOk
  · injection hOk with hEq
    subst hEq
    rcases eq_or_ne id id0 with rfl | hne
    · simp [upd]
    · simp only [upd, if_neg hne]
      exact ht
  · injection hOk with hEq
    subst hEq
    exact ht

theorem approved_finalize {s s1 : State} {id0 id : Nat}
    (ht : s.recApproved id = some true)
    (hOk : action_finalize_recovery id0 s = .ok s1) :
    s1.recApproved id = some true := by
  unfold action_finalize_recovery at hOk
  split at hOk
  · exact Except.noConfusion hOk
  split at hOk
  · exact Except.noConfusion hOk
  injection hOk with hEq
  subst hEq
  exact ht

theorem approved_call {act : Nat} {a : Args} {s s1 : State}
    {v : Option Val} {id : Nat} (h : StateInv s)
    (ht : s.recApproved id = some true)
    (hr : call act a s = .ok (s1, v)) :
    s1.recApproved id = some true := by
  unfold call at hr
  split at hr
  · cases hx : action_init_guardians a.caller a.account a.guardians
        a.threshold s with
    | ok s2 =>
        rw [hx] at hr
        injection hr with h2
        injection h2 with hs hv
        subst hs
        exact approved_register ht hx
    | error e => rw [hx] at hr; exact Except.noConfusion hr
  split at hr
  · cases hx : action_initiate_recovery a.account a.newKey s with
    | ok s2 =>
        rw [hx] at hr
        injection hr with h2
        injection h2 with hs hv
        subst hs
        exact approved_initiate h ht hx
    | error e => rw [hx] at hr; exact Except.noConfusion hr
  split at hr
  · cases hx : action_approve_recovery a.caller a.recoveryId s with
    | ok s2 =>
        rw [hx] at hr
        injection hr with h2
        injection h2 with hs hv
        subst hs
        exact approved_approve ht hx
    | error e => rw [hx] at hr; exact Except.noConfusion hr
  split at hr
  · cases hx : action_is_threshold_met a.recoveryId s with
    | ok r =>
        rw [hx] at hr
        injection hr with h2
        injection h2 with hs hv
        subst hs
        exact ht
    | error e => rw [hx] at hr; exact Except.noConfusion hr
  split at hr
  · cases hx : action_finalize_recovery a.recoveryId s with
    | ok s2 =>
        rw [hx] at hr
        injection hr with h2
        injection h2 with hs hv
        subst hs
        exact approved_finalize ht hx
    | error e => rw [hx] at hr; exact Except.noConfusion hr
  split at hr
  · cases hx : action_get_guardians a.account s with
    | ok r =>
        rw [hx] at hr
        injection hr with h2
        injection h2 with hs hv
        subst hs
        exact ht
    | error e => rw [hx] at hr; exact Except.noConfusion hr
  split at hr
  · cases hx : action_get_threshold a.account s with
    | ok r =>
        rw [hx] at hr
        injection hr with h2
        injection h2 with hs hv
        subst hs
        exact ht
    | error e => rw [hx] at hr; exact Except.noConfusion hr
  split at hr
  · cases hx : action_has_guardians a.account s with
    | ok r =>
        rw [hx] at hr
        injection hr with h2
        injection h2 with hs hv
        subst hs
        exact ht
    | error e => rw [hx] at hr; exact Except.noConfusion hr
  exact Except.noConfusion hr

theorem approved_stepCall {s : State} {id : Nat} (h : StateInv s)
    (ht : s.recApproved id = some true) (p : Nat × Args) :
    (stepCall s p).recApproved id = some true := by
  obtain ⟨act, a⟩ := p
  cases hr : call act a s with
  | ok pr =>
      obtain ⟨s1, v⟩ := pr
      rw [stepCall_of_call_ok hr]
      exact approved_call h ht hr
  | error e =>
      rw [stepCall_of_call_err hr]
      exact ht

theorem approved_runFrom {s : State} {id : Nat} (h : StateInv s)
    (ht : s.recApproved id = some true) (l : List (Nat × Args)) :
    (runFrom s l).recApproved id = some true := by
  induction l generalizing s with
  | nil => exact ht
  | cons p l ih => exact ih (inv_stepCall h p) (approved_stepCall h ht p)

theorem approve_already {s : State} {cl : Account} {id : Nat}
    {acct : Account} {gsl : List Account}
    (heqA : s.recAccount id = some acct)
    (heqG : s.guardians acct = some gsl) (hin : cl ∈ gsl)
    (hap : cl ∈ s.recApprovers id) :
    action_approve_recovery cl id s = .error .AlreadyApproved := by
  unfold action_approve_recovery
  simp only [heqA, heqG]
  rw [if_neg (not_not_intro hin), if_pos hap]

theorem approve_not_guardian {s : State} {cl : Account} {id : Nat}
    {acct : Account} (heqA : s.recAccount id = some acct)
    (hng : cl ∉ (s.guardians acct).getD []) :
    action_approve_recovery cl id s = .error .NotGuardian := by
  unfold action_approve_recovery
  simp only [heqA]
  cases hg : s.guardians acct with
  | none => simp only [hg]
  | some gsl =>
      rw [hg] at hng
      simp only [Option.getD_some] at hng
      simp only [hg]
      rw [if_pos hng]

theorem approve_err_step {s : State} {cl id : Nat} {e : Err}
    (herr : action_approve_recovery cl id s = .error e) :
    stepCall s (3, apArgs cl id) = s := by
  apply stepCall_of_call_err
  have hred : call 3 (apArgs cl id) s
      = (action_approve_recovery cl id s).map (fun s1 => (s1, none)) := rfl
  rw [hred, herr]
  rfl

theorem register_on_inited {s : State} {c a : Account}
    {gsl : List Account} {t : Nat} (hca : ¬ c ≠ a)
    (hlen : ¬ gsl.length < 2) (ht : ¬ (t = 0 ∨ gsl.length < t))
    (hinit : (s.init a).getD false = true) :
    action_init_guardians c a gsl t s = .error .AlreadyInitialized := by
  unfold action_init_guardians
  rw [if_neg hca, if_neg hlen, if_neg ht, if_pos hinit]

/-- Claim C1, as stated, is false: register never examines the guardian
list for duplicates, so the duplicated list [1, 1, 2] with threshold 2 on
the empty store succeeds instead of failing with InvalidGuardianSet. -/
theorem C1_counterexample : ¬ C1_claimStatement := by
  intro h
  have h2 := h State.empty 0 [1, 1, 2] 2 (by decide) (by decide) (by decide)
    (by decide) (by decide)
  have h3 : errOf (action_init_guardians 0 0 [1, 1, 2] 2 State.empty)
      = none := by decide
  rw [h2] at h3
  simp [errOf] at h3

/-- Claim C1 (amended): register performs no duplicate check; a call
whose guardian list contains duplicates, with all other preconditions
holding, succeeds and persists the duplicated guardian list, the
threshold and the init flag. -/
theorem C1_dup_accepted : ∀ (s : State) (a : Account)
    (gsl : List Account) (t : Nat),
    2 ≤ gsl.length → 1 ≤ t → t ≤ gsl.length →
    (s.init a).getD false = false → ¬ gsl.Nodup →
    action_init_guardians a a gsl t s = .ok { s with
      guardians := upd s.guardians a (some gsl)
      threshold := upd s.threshold a (some t)
      init := upd s.init a (some true) } := by
  intro s a gsl t hlen ht1 ht2 hinit hdup
  unfold action_init_guardians
  rw [if_neg (by simp), if_neg (by omega), if_neg (by omega),
    if_neg (by simp [hinit])]

theorem C1_witness : ¬ ([1, 1, 2] : List Account).Nodup ∧
    action_init_guardians 0 0 [1, 1, 2] 2 State.empty
      = .ok { State.empty with
        guardians := upd State.empty.guardians 0 (some [1, 1, 2])
        threshold := upd State.empty.threshold 0 (some 2)
        init := upd State.empty.init 0 (some true) } :=
  ⟨by decide, C1_dup_accepted State.empty 0 [1, 1, 2] 2 (by decide)
    (by decide) (by decide) (by decide) (by decide)⟩

set_option maxRecDepth 100000 in
theorem cexBase_facts : (runTrace cexBase).recAccount 1 = some 300 ∧
    (runTrace cexBase).guardians 300 = some (List.range 256) ∧
    (255 : Account) ∈ List.range 256 ∧
    (255 : Account) ∉ (runTrace cexBase).recApprovers 1 ∧
    okCount 1 (action_approve_recovery 255 1 (runTrace cexBase))
      = some (some 0) := by
  decide

/-- Claim C2, as stated, is false: in the reachable store where 255 of
the 256 registered guardians of account 300 have approved session 1 (u8
count 255), the 256th distinct approval succeeds but wraps the count to
0 rather than incrementing it to 256. -/
theorem C2_counterexample : ¬ C2_claimStatement := by
  intro h
  obtain ⟨f1, f2, f3, f4, f5⟩ := cexBase_facts
  obtain ⟨s1, hok, hc, _⟩ := h (runTrace cexBase) ⟨cexBase, rfl⟩ 1 300 255
    (List.range 256) f1 f2 f3 f4
  rw [hok] at f5
  simp only [okCount] at f5
  rw [hc] at f5
  simp at f5

/-- Claim C2 (amended): a successful approve by a fresh guardian sets
the stored count to the old count plus one reduced mod 256 (the count is
a u8, so it increments by exactly one whenever the old count is below
255); when the new count reaches the threshold the approved flag is set
to true, and otherwise the approved flag is left unchanged. -/
theorem C2_approve_effect : ∀ (s : State) (id : Nat) (a cl : Account)
    (gsl : List Account),
    s.recAccount id = some a → s.guardians a = some gsl → cl ∈ gsl →
    cl ∉ s.recApprovers id →
    ∃ s1, action_approve_recovery cl id s = .ok s1 ∧
      s1.recApprovalCount id
        = some (((s.recApprovalCount id).getD 0 + 1) % 256) ∧
      ((s.threshold a).getD 2 ≤ ((s.recApprovalCount id).getD 0 + 1) % 256 →
        s1.recApproved id = some true) ∧
      (((s.recApprovalCount id).getD 0 + 1) % 256 < (s.threshold a).getD 2 →
        s1.recApproved id = s.recApproved id) := by
  intro s id a cl gsl ha hg hmem hnap
  by_cases hthr : (s.threshold a).getD 2
      ≤ ((s.recApprovalCount id).getD 0 + 1) % 256
  · refine ⟨{ s with
      recApprovers := upd s.recApprovers id (cl :: s.recApprovers id)
      recApprovalCount := upd s.recApprovalCount id
        (some (((s.recApprovalCount id).getD 0 + 1) % 256))
      recApproved := upd s.recApproved id (some true) }, ?_, ?_, ?_, ?_⟩
    · unfold action_approve_recovery
      simp only [ha, hg]
      rw [if_neg (not_not_intro hmem), if_neg hnap, if_pos hthr]
    · simp [upd]
    · intro h2
      simp [upd]
    · intro hlt
      exact absurd hthr (not_le.mpr hlt)
  · refine ⟨{ s with
      recApprovers := upd s.recApprovers id (cl :: s.recApprovers id)
      recApprovalCount := upd s.recApprovalCount id
        (some (((s.recApprovalCount id).getD 0 + 1) % 256)) }, ?_, ?_, ?_, ?_⟩
    · unfold action_approve_recovery
      simp only [ha, hg]
      rw [if_neg (not_not_intro hmem), if_neg hnap, if_neg hthr]
    · simp [upd]
    · intro hle
      exact absurd hle hthr
    · intro h2
      rfl

theorem C2_witness :
    ∃ s1, action_approve_recovery 1 1 (runTrace trOpen) = .ok s1 ∧
      s1.recApprovalCount 1 = some
        ((((runTrace trOpen).recApprovalCount 1).getD 0 + 1) % 256) ∧
      (((runTrace trOpen).threshold 0).getD 2 ≤
          (((runTrace trOpen).recApprovalCount 1).getD 0 + 1) % 256 →
        s1.recApproved 1 = some true) ∧
      ((((runTrace trOpen).recApprovalCount 1).getD 0 + 1) % 256 <
          ((runTrace trOpen).threshold 0).getD 2 →
        s1.recApproved 1 = (runTrace trOpen).recApproved 1) :=
  C2_approve_effect (runTrace trOpen) 1 0 1 [1, 2] (by decide) (by decide)
    (by decide) (by decide)

set_option maxRecDepth 100000 in
theorem cexC3_facts : (runTrace cexC3).recAccount 1 = some 300 ∧
    (runTrace cexC3).recApprovalCount 1 = some 0 ∧
    ((runTrace cexC3).recApprovers 1).length = 256 := by
  decide

/-- Claim C3, as stated, is false: after 256 distinct guardians of
account 300 approve session 1, the store is reachable, 256 approver
markers are recorded, but the u8 approval count has wrapped to 0, so the
stored count does not equal the number of recorded approvers. -/
theorem C3_counterexample : ¬ C3_claimStatement := by
  intro h
  obtain ⟨f1, f2, f3⟩ := cexC3_facts
  obtain ⟨hc, _⟩ := h (runTrace cexC3) ⟨cexC3, rfl⟩ 1 300 f1
  rw [f2, f3] at hc
  exact absurd hc (by decide)

/-- Claim C3 (amended): in every reachable store, the stored approval
count of each session equals the number of its recorded approver markers
reduced mod 256 (u8 wrap), the recorded approvers are pairwise distinct,
and every recorded approver is a member of the guardian list stored for
the session account (that list is immutable after registration, so
membership now is membership at the time the approval was cast). -/
theorem C3_invariant : ∀ s : State, Reachable s →
    ∀ (id : Nat) (a : Account), s.recAccount id = some a →
    s.recApprovalCount id = some ((s.recApprovers id).length % 256) ∧
    (s.recApprovers id).Nodup ∧
    ∀ g ∈ s.recApprovers id,
      ∃ gsl, s.guardians a = some gsl ∧ g ∈ gsl := by
  intro s hs id a ha
  have h := inv_reachable hs
  refine ⟨h.count_eq id a ha, h.appr_nodup id, ?_⟩
  intro g hg
  obtain ⟨a2, gsl, ha2, hgu, hm⟩ := h.appr_guard id g hg
  rw [ha] at ha2
  injection ha2 with ha3
  exact ⟨gsl, by rw [ha3]; exact hgu, hm⟩

theorem C3_witness : (runTrace trOneApproval).recApprovalCount 1
      = some (((runTrace trOneApproval).recApprovers 1).length % 256) ∧
    ((runTrace trOneApproval).recApprovers 1).Nodup ∧
    ∀ g ∈ (runTrace trOneApproval).recApprovers 1,
      ∃ gsl, (runTrace trOneApproval).guardians 0 = some gsl ∧ g ∈ gsl :=
  C3_invariant (runTrace trOneApproval) ⟨trOneApproval, rfl⟩ 1 0 (by decide)

/-- Claim C4: in every reachable store, once the approved flag of a
session is true, it is still true after any further sequence of deploys
(register, initiate, approve, finalize, the read-only queries, and
unknown action codes alike): the flag never reverts. -/
theorem C4_approved_monotonic : ∀ s : State, Reachable s → ∀ id : Nat,
    s.recApproved id = some true → ∀ l : List (Nat × Args),
    (runFrom s l).recApproved id = some true := by
  intro s hs id ht l
  exact approved_runFrom (inv_reachable hs) ht l

theorem C4_witness :
    (runFrom (runTrace trApproved) [(5, finArgs 1), (2, initArgs 0 0)]
      ).recApproved 1 = some true :=
  C4_approved_monotonic (runTrace trApproved) ⟨trApproved, rfl⟩ 1
    (by decide) [(5, finArgs 1), (2, initArgs 0 0)]

/-- Claim C5: in every reachable store, an account with an active-session
marker cannot start another recovery (initiate reverts with
RecoveryExists, the error the spec calls RecoveryAlreadyActive), and
after a successful finalize of a session the same account can initiate
again, producing the fresh session id counter + 1, which differs from
the finalized session id. -/
theorem C5_single_active : ∀ s : State, Reachable s →
    (∀ (a : Account) (id0 : Nat) (k : PubKey), s.active a = some id0 →
      action_initiate_recovery a k s = .error .RecoveryExists) ∧
    (∀ (id : Nat) (acct : Account) (s1 : State) (k : PubKey),
      s.recAccount id = some acct →
      action_finalize_recovery id s = .ok s1 →
      ∃ s2, action_initiate_recovery acct k s1 = .ok s2 ∧
        s2.active acct = some (s.counter.getD 0 + 1) ∧
        s2.recAccount (s.counter.getD 0 + 1) = some acct ∧
        s.counter.getD 0 + 1 ≠ id) := by
  intro s hs
  have h := inv_reachable hs
  constructor
  · intro a id0 k hact
    unfold action_initiate_recovery
    rw [if_neg (not_not_intro (h.active_init a id0 hact))]
    rw [hact]
  · intro id acct s1 k hacc hfin
    have hle := sess_le_counter h hacc
    have hinit2 : (s.init acct).getD false = true := h.sess_init id acct hacc
    unfold action_finalize_recovery at hfin
    split at hfin
    · exact Except.noConfusion hfin
    rename_i acct2 heq
    rw [hacc] at heq
    injection heq with heq2
    subst heq2
    split at hfin
    · exact Except.noConfusion hfin
    injection hfin with hEq
    subst hEq
    refine ⟨{ s with
      counter := some (s.counter.getD 0 + 1)
      recAccount := upd s.recAccount (s.counter.getD 0 + 1) (some acct)
      recNewKey := upd s.recNewKey (s.counter.getD 0 + 1) (some k)
      recApprovalCount := upd s.recApprovalCount (s.counter.getD 0 + 1)
        (some 0)
      recApproved := upd s.recApproved (s.counter.getD 0 + 1) (some false)
      active := upd (upd s.active acct none) acct
        (some (s.counter.getD 0 + 1)) }, ?_, ?_, ?_, ?_⟩
    · unfold action_initiate_recovery
      dsimp only
      rw [if_neg (not_not_intro hinit2)]
      rw [upd_self]
    · dsimp only
      rw [upd_self]
    · dsimp only
      rw [upd_self]
    · omega

theorem C5_witness :
    action_initiate_recovery 0 9 (runTrace trApproved)
      = .error .RecoveryExists ∧
    (∃ s2, action_initiate_recovery 0 9
        (stepCall (runTrace trApproved) (5, finArgs 1)) = .ok s2 ∧
      s2.active 0 = some ((runTrace trApproved).counter.getD 0 + 1) ∧
      s2.recAccount ((runTrace trApproved).counter.getD 0 + 1)
        = some 0 ∧
      (runTrace trApproved).counter.getD 0 + 1 ≠ 1) :=
  ⟨(C5_single_active (runTrace trApproved) ⟨trApproved, rfl⟩).1 0 1 9
    (by decide),
   (C5_single_active (runTrace trApproved) ⟨trApproved, rfl⟩).2 1 0
    (stepCall (runTrace trApproved) (5, finArgs 1)) 9 (by decide) rfl⟩

/-- Claim C6: for an existing session, approve by a caller outside the
stored guardian list of the session account reverts with NotGuardian,
and approve by a guardian already recorded as an approver reverts with
AlreadyApproved; in both cases the deploy leaves the store unchanged. -/
theorem C6_guard_errors : ∀ (s : State) (id : Nat) (acct cl : Account),
    s.recAccount id = some acct →
    (cl ∉ (s.guardians acct).getD [] →
      action_approve_recovery cl id s = .error .NotGuardian ∧
      stepCall s (3, apArgs cl id) = s) ∧
    (cl ∈ (s.guardians acct).getD [] → cl ∈ s.recApprovers id →
      action_approve_recovery cl id s = .error .AlreadyApproved ∧
      stepCall s (3, apArgs cl id) = s) := by
  intro s id acct cl ha
  constructor
  · intro hnin
    have herr := approve_not_guardian ha hnin
    exact ⟨herr, approve_err_step herr⟩
  · intro hin hap
    cases hg : s.guardians acct with
    | none =>
        rw [hg] at hin
        simp at hin
    | some gsl =>
        rw [hg] at hin
        simp only [Option.getD_some] at hin
        have herr := approve_already ha hg hin hap
        exact ⟨herr, approve_err_step herr⟩

theorem C6_witness :
    (action_approve_recovery 9 1 (runTrace trOneApproval)
        = .error .NotGuardian ∧
      stepCall (runTrace trOneApproval) (3, apArgs 9 1)
        = runTrace trOneApproval) ∧
    (action_approve_recovery 1 1 (runTrace trOneApproval)
        = .error .AlreadyApproved ∧
      stepCall (runTrace trOneApproval) (3, apArgs 1 1)
        = runTrace trOneApproval) :=
  ⟨(C6_guard_errors (runTrace trOneApproval) 1 0 9 (by decide)).1
      (by decide),
   (C6_guard_errors (runTrace trOneApproval) 1 0 1 (by decide)).2
      (by decide) (by decide)⟩

/-- Claim C7: for an existing session whose approved flag reads false,
finalize reverts with ThresholdNotMet and the deploy leaves the store,
in particular the active-session marker, unchanged. -/
theorem C7_finalize_needs_approval : ∀ (s : State) (id : Nat)
    (acct : Account), s.recAccount id = some acct →
    (s.recApproved id).getD false = false →
    action_finalize_recovery id s = .error .ThresholdNotMet ∧
    stepCall s (5, finArgs id) = s := by
  intro s id acct ha happ
  have herr : action_finalize_recovery id s = .error .ThresholdNotMet := by
    unfold action_finalize_recovery
    simp only [ha]
    rw [if_pos (by simp [happ])]
  have hcall : call 5 (finArgs id) s = .error .ThresholdNotMet := by
    have hred : call 5 (finArgs id) s
        = (action_finalize_recovery id s).map (fun s1 => (s1, none)) := rfl
    rw [hred, herr]
    rfl
  exact ⟨herr, stepCall_of_call_err hcall⟩

theorem C7_witness :
    action_finalize_recovery 1 (runTrace trOpen)
      = .error .ThresholdNotMet ∧
    stepCall (runTrace trOpen) (5, finArgs 1) = runTrace trOpen :=
  C7_finalize_needs_approval (runTrace trOpen) 1 0 (by decide) (by decide)

/-- Claim C8: after a successful register, repeating the very same
register call reverts with AlreadyInitialized and the deploy leaves the
store exactly as the first call left it. -/
theorem C8_register_once : ∀ (s s1 : State) (c a : Account)
    (gsl : List Account) (t : Nat),
    action_init_guardians c a gsl t s = .ok s1 →
    action_init_guardians c a gsl t s1 = .error .AlreadyInitialized ∧
    stepCall s1 (1, regArgs c a gsl t) = s1 := by
  intro s s1 c a gsl t hOk
  unfold action_init_guardians at hOk
  split at hOk
  · exact Except.noConfusion hOk
  split at hOk
  · exact Except.noConfusion hOk
  split at hOk
  · exact Except.noConfusion hOk
  split at hOk
  · exact Except.noConfusion hOk
  rename_i hca hlen ht hinit
  injection hOk with hEq
  subst hEq
  refine ⟨register_on_inited hca hlen ht (by simp [upd]), ?_⟩
  apply stepCall_of_call_err
  have hred : ∀ s2 : State, call 1 (regArgs c a gsl t) s2
      = (action_init_guardians c a gsl t s2).map (fun s3 => (s3, none)) :=
    fun s2 => rfl
  rw [hred, register_on_inited hca hlen ht (by simp [upd])]
  rfl

theorem C8_witness :
    action_init_guardians 0 0 [1, 2] 1
        (stepCall State.empty (1, regArgs 0 0 [1, 2] 1))
      = .error .AlreadyInitialized ∧
    stepCall (stepCall State.empty (1, regArgs 0 0 [1, 2] 1))
        (1, regArgs 0 0 [1, 2] 1)
      = stepCall State.empty (1, regArgs 0 0 [1, 2] 1) :=
  C8_register_once State.empty
    (stepCall State.empty (1, regArgs 0 0 [1, 2] 1)) 0 0 [1, 2] 1 rfl

theorem c9_no_triple (act : Nat) :
    retOf (call act args0C9 s0C9) ≠ some (some (.triple 5 1 false)) := by
  unfold call
  split
  · decide
  split
  · decide
  split
  · decide
  split
  · decide
  split
  · decide
  split
  · decide
  split
  · decide
  split
  · decide
  decide

/-- Claim C9, as stated, is false: no action code of the dispatcher
implements getSessionInfo.  On the store s0C9 holding session 1 with
account 5, count 1, approved false, every action either reverts or
returns a value other than the (account, approval_count, approved)
triple, so no dispatched operation conforms to spec_getSessionInfo. -/
theorem C9_counterexample : ¬ C9_claimStatement := by
  rintro ⟨act, h⟩
  have h1 := (h args0C9 s0C9).1 5 (by decide)
  have h2 : retOf (call act args0C9 s0C9)
      = some (some (.triple 5 1 false)) := by
    rw [h1]
    rfl
  exact c9_no_triple act h2

/-- Claim C9 (amended): the session-status query the program exposes is
action 4, is_threshold_met: for every existing session it returns only
the approved flag, without mutating the store, and it reverts with
RecoveryNotFound (the session-missing error) when the session is
absent; no dispatched action returns the full (account, approval_count,
approved) triple. -/
theorem C9_is_threshold_met : ∀ (a : Args) (s : State),
    (∀ acct, s.recAccount a.recoveryId = some acct →
      call 4 a s = .ok (s, some (.b ((s.recApproved a.recoveryId).getD false)))) ∧
    (s.recAccount a.recoveryId = none →
      call 4 a s = .error .RecoveryNotFound) := by
  intro a s
  constructor
  · intro acct ha
    have hred : call 4 a s = (action_is_threshold_met a.recoveryId s).map
        (fun r => (s, some (Val.b r))) := rfl
    rw [hred]
    unfold action_is_threshold_met
    simp only [ha]
    rfl
  · intro ha
    have hred : call 4 a s = (action_is_threshold_met a.recoveryId s).map
        (fun r => (s, some (Val.b r))) := rfl
    rw [hred]
    unfold action_is_threshold_met
    simp only [ha]
    rfl

theorem C9_witness :
    call 4 args0C9 s0C9 = .ok (s0C9, some (Val.b false)) ∧
    call 4 { args0C9 with recoveryId := 2 } s0C9
      = .error .RecoveryNotFound :=
  ⟨(C9_is_threshold_met args0C9 s0C9).1 5 (by decide),
   (C9_is_threshold_met { args0C9 with recoveryId := 2 } s0C9).2
     (by decide)⟩

/-- Claim C10: the double-vote guard is keyed by the approver account:
whenever an approve by some account succeeds, an immediate second
approve by the same account on the same session reverts with
AlreadyApproved and changes nothing, so an account listed several times
among the guardians still counts at most once per session. -/
theorem C10_no_double_vote : ∀ (s s1 : State) (cl : Account) (id : Nat),
    action_approve_recovery cl id s = .ok s1 →
    action_approve_recovery cl id s1 = .error .AlreadyApproved ∧
    stepCall s1 (3, apArgs cl id) = s1 := by
  intro s s1 cl id hOk
  unfold action_approve_recovery at hOk
  split at hOk
  · exact Except.noConfusion hOk
  rename_i acct heqA
  split at hOk
  · exact Except.noConfusion hOk
  rename_i gsl heqG
  split at hOk
  · exact Except.noConfusion hOk
  rename_i hnin
  rw [not_not] at hnin
  split at hOk
  · exact Except.noConfusion hOk
  rename_i hnap
  split at hOk <;>
  · injection hOk with hEq
    subst hEq
    refine ⟨approve_already heqA heqG hnin (by simp [upd]), ?_⟩
    exact approve_err_step (approve_already heqA heqG hnin (by simp [upd]))

theorem C10_witness : ¬ ([7, 7] : List Account).Nodup ∧
    (runTrace trDup).guardians 0 = some [7, 7] ∧
    action_approve_recovery 7 1
        (stepCall (runTrace trDup) (3, apArgs 7 1))
      = .error .AlreadyApproved ∧
    stepCall (stepCall (runTrace trDup) (3, apArgs 7 1)) (3, apArgs 7 1)
      = stepCall (runTrace trDup) (3, apArgs 7 1) :=
  ⟨by decide, by decide,
   (C10_no_double_vote (runTrace trDup)
     (stepCall (runTrace trDup) (3, apArgs 7 1)) 7 1 rfl).1,
   (C10_no_double_vote (runTrace trDup)
     (stepCall (runTrace trDup) (3, apArgs 7 1)) 7 1 rfl).2⟩

end GuardianRecovery
